import Mathlib

/-!
Verification of the hierarchical settings / curve-evaluation engine of
`src/controls-editor.js` (Boxxy Binder).

Modelling conventions for the shallow embedding:

* JavaScript numbers are embedded as `ℚ`.  A division whose denominator is
  zero produces the non-finite JS value `NaN` (the only zero-denominator
  divisions reachable inside the `[0,1]` domain are of the form `0/0`);
  such a non-finite result is embedded as `none` in an `Option ℚ` result,
  and it propagates through the surrounding arithmetic exactly as `NaN`
  does.
* JavaScript strings are embedded as `String`; the string operations used
  by the source (`split('.')`, `join`, anchored first-occurrence
  `replace`) are implemented structurally over the character list so that
  they compute inside the kernel.
* `Array.prototype.sort` with the comparator `(a, b) => a.in - b.in` is a
  stable sort ordered by the `in` field; it is embedded as the (stable)
  insertion sort ordered by the same key.
-/

/-- A control point of a response curve: the `{in, out}` objects of the
source (`in` is renamed `in_` because it is a Lean keyword). -/
structure Point where
  in_ : ℚ
  out : ℚ
deriving DecidableEq, Repr

/-- A response curve: the `{reset, points}` objects built by `parseCurve`. -/
structure Curve where
  reset : Bool
  points : List Point
deriving DecidableEq, Repr

/-- JS division: `none` embeds the non-finite result produced by a zero
denominator (`0/0` is `NaN`). -/
def jsDiv (a b : ℚ) : Option ℚ :=
  if b = 0 then none else some (a / b)

/-- `[...points].sort((a, b) => a.in - b.in)`: stable sort by the `in`
field. -/
def sortPoints (points : List Point) : List Point :=
  points.insertionSort (fun a b => a.in_ ≤ b.in_)

/-- The `lower`/`upper` search loop of `interpolateCurve`
(src/controls-editor.js lines 2012–2026): walk the sorted list, keeping the
last point with `in <= input` as `lower`, and `break` at the first point
with `in >= input`, which becomes `upper`. -/
def findBracket (input : ℚ) : List Point → Point × Point → Point × Point
  | [], lu => lu
  | p :: ps, (lo, up) =>
    let lo' := if p.in_ ≤ input then p else lo
    if input ≤ p.in_ then (lo', p) else findBracket input ps (lo', up)

/-- Body of `interpolateCurve` after the sort, on a non-empty sorted list
`p0 :: rest` (src/controls-editor.js lines 2011–2046). -/
def interpolateSorted (input : ℚ) (p0 : Point) (rest : List Point) : Option ℚ :=
  let lu := findBracket input (p0 :: rest) (⟨0, 0⟩, ⟨1, 1⟩)
  let lastPoint := rest.getLastD p0
  if input ≤ p0.in_ then
    (jsDiv input p0.in_).map (fun q => p0.out * q)
  else if lastPoint.in_ ≤ input then
    (jsDiv (input - lastPoint.in_) (1 - lastPoint.in_)).map
      (fun q => lastPoint.out + q * (1 - lastPoint.out))
  else if lu.1.in_ = lu.2.in_ then some lu.1.out
  else some (lu.1.out + (input - lu.1.in_) / (lu.2.in_ - lu.1.in_) * (lu.2.out - lu.1.out))

/-- `interpolateCurve(input, points)` (src/controls-editor.js lines
2004–2047): identity on an empty point list, otherwise sort and
interpolate/extrapolate.  A `none` result embeds a `NaN` output. -/
def interpolateCurve (input : ℚ) (points : List Point) : Option ℚ :=
  match sortPoints points with
  | [] => some input
  | p0 :: rest => interpolateSorted input p0 rest

/-! ## JS numeric string parsing -/

/-- Decimal digit value of a character, `none` for a non-digit. -/
def digitVal (c : Char) : Option Nat :=
  if '0' ≤ c ∧ c ≤ '9' then some (c.toNat - '0'.toNat) else none

/-- Hexadecimal digit value of a character, `none` for a non-hex-digit. -/
def hexVal (c : Char) : Option Nat :=
  if '0' ≤ c ∧ c ≤ '9' then some (c.toNat - '0'.toNat)
  else if 'a' ≤ c ∧ c ≤ 'f' then some (c.toNat - 'a'.toNat + 10)
  else if 'A' ≤ c ∧ c ≤ 'F' then some (c.toNat - 'A'.toNat + 10)
  else none

/-- Accumulate the longest leading run of digits; `none` when no digit was
consumed at all (the JS parse yields `NaN` then). -/
def parseDigits (base : Nat) (val : Char → Option Nat) :
    List Char → Option Nat → Option Nat
  | [], acc => acc
  | c :: cs, acc =>
    match val c with
    | none => acc
    | some d => parseDigits base val cs (some (acc.getD 0 * base + d))

/-- JS `parseInt(s)` (radix unspecified): skip leading whitespace, read an
optional sign, auto-detect a `0x`/`0X` hexadecimal literal, then consume
the longest leading digit run and ignore the rest of the string; `none`
embeds the `NaN` result.  In particular `parseInt("1.5") = 1`. -/
def parseJsInt (s : String) : Option Int :=
  let cs := s.data.dropWhile (fun c => c == ' ' || c == '\t' || c == '\n' || c == '\r')
  let signAndRest : Int × List Char :=
    match cs with
    | '-' :: rest => (-1, rest)
    | '+' :: rest => (1, rest)
    | _ => (1, cs)
  let baseAndRest : Nat × List Char :=
    match signAndRest.2 with
    | '0' :: 'x' :: rest => (16, rest)
    | '0' :: 'X' :: rest => (16, rest)
    | rest => (10, rest)
  match parseDigits baseAndRest.1 (if baseAndRest.1 = 16 then hexVal else digitVal)
      baseAndRest.2 none with
  | none => none
  | some n => some (signAndRest.1 * n)

/-! ## Tri-state visibility -/

/-- The four values `parseVisibility` can produce: JS `null`, the string
`'inherit'`, and the booleans. -/
inductive Visibility where
  | null_ : Visibility
  | inherit : Visibility
  | flag : Bool → Visibility
deriving DecidableEq, Repr

/-- `parseVisibility(attr)` (src/controls-editor.js lines 796–807): an
unset attribute is `null`; otherwise the attribute string goes through JS
`parseInt`, with `-1 ↦ 'inherit'`, `0 ↦ false`, `1 ↦ true` and anything
else (including `NaN`) `null`. -/
def parseVisibility (attr : Option String) : Visibility :=
  match attr with
  | none => .null_
  | some s =>
    match parseJsInt s with
    | none => .null_
    | some v =>
      if v = -1 then .inherit
      else if v = 0 then .flag false
      else if v = 1 then .flag true
      else .null_

/-! ## Path strings -/

/-- `s.split('.')` on the character list: always non-empty, empty segments
are kept (`"" ↦ [""]`, `"a..b" ↦ ["a","","b"]`). -/
def splitOnDot : List Char → List (List Char)
  | [] => [[]]
  | c :: rest =>
    let r := splitOnDot rest
    if c = '.' then [] :: r
    else
      match r with
      | [] => [[c]]
      | h :: t => (c :: h) :: t

/-- JS `path.split('.')`. -/
def splitPath (path : String) : List String :=
  (splitOnDot path.data).map String.mk

/-- JS `parts.join('.')`. -/
def joinDot : List String → String
  | [] => ""
  | [s] => s
  | s :: rest => s ++ "." ++ joinDot rest

/-- JS `path.split('.').pop()`: the final segment of a path (the whole
path when it has no dot). -/
def lastSegment (path : String) : String :=
  (splitPath path).getLastD ""

/-- Replace the first occurrence of the (non-empty) pattern in a character
list — JS `s.replace(pat, rep)` for a literal, unanchored pattern without
the `g` flag. -/
def replaceFirstChars (pat rep : List Char) : List Char → List Char
  | [] => []
  | c :: cs =>
    if pat.isPrefixOf (c :: cs) then rep ++ (c :: cs).drop pat.length
    else c :: replaceFirstChars pat rep cs

/-- JS `s.replace(/pat$/, rep)` for a literal end-anchored pattern. -/
def replaceSuffixChars (pat rep s : List Char) : List Char :=
  if pat.isSuffixOf s then s.take (s.length - pat.length) ++ rep else s

/-- JS `s.replace(/^pat/, rep)` for a literal start-anchored pattern. -/
def replaceStartChars (pat rep s : List Char) : List Char :=
  if pat.isPrefixOf s then rep ++ s.drop pat.length else s

/-- JS `s.replace(/^pat$/, rep)`. -/
def replaceFullChars (pat rep s : List Char) : List Char :=
  if s = pat then rep else s

/-- The path rewrite of `markSectionType` (src/controls-editor.js lines
1003–1007): the four chained first-occurrence replacements
`.inversion.` → `.P.`, trailing `.inversion` → `.P`, leading
`inversion.` → `P.`, and the whole-path case `inversion` → `P`, applied in
this order. -/
def rewriteInversionPath (pathPrefix : String) (path : String) : String :=
  let p := pathPrefix.data
  String.mk
    (replaceFullChars "inversion".data p
      (replaceStartChars ("inversion.".data) (p ++ ['.'])
        (replaceSuffixChars (".inversion".data) ('.' :: p)
          (replaceFirstChars (".inversion.".data) ('.' :: p ++ ['.'])
            path.data))))

/-! ## Node model and hierarchy builder -/

/-- The three device classes (`optiontree type` attribute values the
parser recognises). -/
inductive DeviceType where
  | keyboard | gamepad | joystick
deriving DecidableEq, Repr

/-- JS `v || d` for a possibly-absent string: an absent or empty (falsy)
string yields the fallback. -/
def jsOr (v : Option String) (d : String) : String :=
  match v with
  | some s => if s = "" then d else s
  | none => d

/-- JS `v || null` for a possibly-absent string. -/
def jsOrNull (v : Option String) : Option String :=
  match v with
  | some s => if s = "" then none else some s
  | none => none

/-- JS `v || d` for a possibly-absent (`NaN`-modelled-as-`none`) integer:
`NaN` and `0` are falsy. -/
def jsOrInt (v : Option Int) (d : Int) : Int :=
  match v with
  | some k => if k = 0 then d else k
  | none => d

/-- JS `v || d` for a possibly-absent rational: `NaN` and `0` are falsy. -/
def jsOrQ (v : Option ℚ) (d : ℚ) : ℚ :=
  match v with
  | some q => if q = 0 then d else q
  | none => d

/-- The scalar fields of a tree node, as built by `parseOptionGroup`
(src/controls-editor.js lines 740–772) and extended by the display
transformer.  Fields a given JS object does not carry are the defaults
(`none` embeds `undefined`/`null`; an absent `path` is embedded as `""`,
which is JS-falsy exactly like the absent value). -/
structure NodeData where
  name : String
  label : String
  path : String := ""
  deviceType : DeviceType
  showInvert : Visibility := .null_
  showCurve : Visibility := .null_
  showSensitivity : Visibility := .null_
  invert : Bool := false
  invertCvar : Option String := none
  exponent : Option ℚ := none
  curve : Option Curve := none
  sectionType : Option String := none
  isSection : Bool := false
  disabled : Bool := false
  disabledReason : Option String := none
  instances : Option Int := none
  sensitivityMin : Option ℚ := none
  sensitivityMax : Option ℚ := none
deriving DecidableEq, Repr

/-- A tree node: scalar data plus the ordered child list. -/
inductive Node where
  | mk (data : NodeData) (children : List Node)
deriving Repr

def Node.data : Node → NodeData
  | .mk d _ => d

def Node.children : Node → List Node
  | .mk _ c => c

def Node.name (n : Node) : String := n.data.name

def Node.path (n : Node) : String := n.data.path

def Node.withData (n : Node) (f : NodeData → NodeData) : Node :=
  .mk (f n.data) n.children

/-- A raw `nonlinearity_curve` element: the `reset` attribute and the
`point` children, the numeric `in`/`out` attribute values already
extracted. -/
structure RawCurve where
  reset : Option String := none
  points : List Point := []
deriving DecidableEq, Repr

/-- The raw scalar attributes of one `optiongroup` element, with the DOM
extraction already performed: string attributes are `Option String`
(`none` = attribute unset) and the numeric `exponent` attribute is the
parsed rational (`none` = unset or non-numeric, i.e. a falsy `NaN`). -/
structure RawElementData where
  name : Option String := none
  uiLabel : Option String := none
  showInvert : Option String := none
  showCurve : Option String := none
  showSensitivity : Option String := none
  invert : Option String := none
  invertCvar : Option String := none
  exponent : Option ℚ := none
  curve : Option RawCurve := none
deriving DecidableEq, Repr

/-- One raw `optiongroup` element with its nested children. -/
inductive RawElement where
  | mk (data : RawElementData) (children : List RawElement)
deriving Repr

/-- `parseCurve(curveElement)` (src/controls-editor.js lines 774–794): a
`reset="1"` marker short-circuits point collection. -/
def parseCurve (c : RawCurve) : Curve :=
  if c.reset = some "1" then ⟨true, []⟩ else ⟨false, c.points⟩

mutual

/-- `parseOptionGroup(element, deviceType, parentPath)` (src/controls-editor.js
lines 740–772): depth-first construction joining paths with `.`.  A
missing `name` attribute interpolates as the string `"null"` inside a
non-empty parent path and otherwise leaves the `path` JS-falsy
(embedded `""`). -/
def parseOptionGroup (deviceType : DeviceType) (parentPath : String) :
    RawElement → Node
  | .mk d children =>
    let path :=
      if parentPath = "" then d.name.getD ""
      else parentPath ++ "." ++ (match d.name with | some s => s | none => "null")
    .mk
      { name := jsOr d.name "root"
        label := jsOr d.uiLabel (jsOr d.name "Unknown")
        path := path
        deviceType := deviceType
        showInvert := parseVisibility d.showInvert
        showCurve := parseVisibility d.showCurve
        showSensitivity := parseVisibility d.showSensitivity
        invert := d.invert == some "1"
        invertCvar := jsOrNull d.invertCvar
        exponent := match d.exponent with
          | some q => if q = 0 then none else some q
          | none => none
        curve := d.curve.map parseCurve }
      (parseOptionGroupList deviceType path children)

def parseOptionGroupList (deviceType : DeviceType) (parentPath : String) :
    List RawElement → List Node
  | [] => []
  | e :: es =>
    parseOptionGroup deviceType parentPath e ::
      parseOptionGroupList deviceType parentPath es

end

/-! ## Display transformer -/

def disabledReasonText : String :=
  "Sensitivity curve settings do not persist properly in Star Citizen and have been temporarily disabled."

mutual

/-- `markSectionType(node, sectionType, pathPrefix)` (src/controls-editor.js
lines 994–1014; the keyboard variant at lines 1064–1072 is the
`pathPrefix = none` case): tag every node of the subtree with the section
type and, when a path prefix is given and the node's path is truthy,
rewrite the `inversion` path segment. -/
def markSectionType (sType : String) (pathPrefix : Option String) : Node → Node
  | .mk d children =>
    let newPath :=
      match pathPrefix with
      | some p => if d.path = "" then d.path else rewriteInversionPath p d.path
      | none => d.path
    .mk { d with sectionType := some sType, path := newPath }
      (markSectionTypeList sType pathPrefix children)

def markSectionTypeList (sType : String) (pathPrefix : Option String) :
    List Node → List Node
  | [] => []
  | n :: ns =>
    markSectionType sType pathPrefix n :: markSectionTypeList sType pathPrefix ns

end

mutual

/-- `markDisabled(node)` (src/controls-editor.js lines 1033–1041). -/
def markDisabled : Node → Node
  | .mk d children =>
    .mk { d with disabled := true, disabledReason := some disabledReasonText }
      (markDisabledList children)

def markDisabledList : List Node → List Node
  | [] => []
  | n :: ns => markDisabled n :: markDisabledList ns

end

/-- `transformToSCHierarchy(rawData, deviceType)` (src/controls-editor.js
lines 952–1094): descend through the `master` wrapper to a curve-family
container, then build the curated display root — two sections (inversion
clone and the disabled, path-rewritten sensitivity-curves clone) for the
multi-instance classes, one section for keyboard/mouse, and the raw data
unchanged as the fallback when no `inversion` child exists. -/
def transformToSCHierarchy (rawData : Node) (deviceType : DeviceType) : Node :=
  let contentNode : Node :=
    match rawData.children.find? (fun (c : Node) => c.name == "master") with
    | some master =>
      match master.children.find? (fun (c : Node) =>
          c.name == "mouse_curves" || c.name == "thumbstick_curves" ||
          c.name == "joystick_curves") with
      | some curvesNode => curvesNode
      | none => rawData
    | none => rawData
  if deviceType = .joystick ∨ deviceType = .gamepad then
    match contentNode.children.find? (fun (c : Node) => c.name == "inversion") with
    | some inversionNode =>
      let inversionClone :=
        (markSectionType "inversion" none inversionNode).withData fun d =>
          { d with label := "@ui_COInversionSettings", isSection := true }
      let curvesClone :=
        (markSectionType "curves" (some "sensitivity_curves") inversionNode).withData
          fun d =>
            { d with
              name := "sensitivity_curves"
              label := if deviceType = .joystick then
                  "@ui_COMasterSensitivityCurvesJoystick"
                else "@ui_COMasterSensitivityCurvesThumb"
              path := "sensitivity_curves"
              isSection := true
              disabled := true
              disabledReason := some disabledReasonText }
      let curvesClone := markDisabled curvesClone
      .mk
        { name := "root"
          label := if deviceType = .joystick then "Joystick Controls" else "Gamepad Controls"
          path := "root"
          deviceType := deviceType
          instances := some (jsOrInt rawData.data.instances 1)
          sensitivityMin := rawData.data.sensitivityMin
          sensitivityMax := rawData.data.sensitivityMax }
        [inversionClone, curvesClone]
    | none => rawData
  else
    match contentNode.children.find? (fun (c : Node) => c.name == "inversion") with
    | some inversionNode =>
      let inversionClone :=
        (markSectionType "inversion" none inversionNode).withData fun d =>
          { d with label := "@ui_COInversionSettings", isSection := true }
      .mk
        { name := "root"
          label := "Mouse Controls"
          path := "root"
          deviceType := deviceType
          instances := some (jsOrInt rawData.data.instances 1)
          sensitivityMin := rawData.data.sensitivityMin
          sensitivityMax := rawData.data.sensitivityMax }
        [inversionClone]
    | none => rawData

/-! ## Parsing the option trees -/

/-- One raw `optiontree` element: its `type`/`instances` attributes (raw
strings), the numeric sensitivity range attributes already parsed, and the
nested option-group structure. -/
structure RawOptionTree where
  type : Option String := none
  instances : Option String := none
  sensitivityMin : Option ℚ := none
  sensitivityMax : Option ℚ := none
  root : RawElement

/-- The per-device-class result of the hierarchy builder: `none` embeds a
JS `null` tree. -/
structure ControlsData where
  keyboard : Option Node := none
  gamepad : Option Node := none
  joystick : Option Node := none

/-- The recognised `optiontree type` attribute values (the
`result.hasOwnProperty(type)` check at line 724). -/
def deviceTypeOfString : String → Option DeviceType
  | "keyboard" => some .keyboard
  | "gamepad" => some .gamepad
  | "joystick" => some .joystick
  | _ => none

/-- `parseOptionTreesFromXml(xmlString)` (src/controls-editor.js lines
708–738) after the external DOM parse: starting from `{keyboard: null,
gamepad: null, joystick: null}`, each recognised `optiontree` is parsed,
given its `instances`/sensitivity attributes, transformed, and stored; a
device class with no `optiontree` in the input **stays `null`**. -/
def parseOptionTreeStep (result : ControlsData) (tree : RawOptionTree) : ControlsData :=
  match tree.type with
  | none => result
  | some t =>
    if t = "" then result
    else
      match deviceTypeOfString t with
      | none => result
      | some dt =>
        let rawData := parseOptionGroup dt "" tree.root
        let rawData := rawData.withData fun d =>
          { d with
            instances := some (jsOrInt (tree.instances.bind parseJsInt) 1)
            sensitivityMin := some (jsOrQ tree.sensitivityMin (1 / 100))
            sensitivityMax := some (jsOrQ tree.sensitivityMax 2) }
        let transformed := transformToSCHierarchy rawData dt
        match dt with
        | .keyboard => { result with keyboard := some transformed }
        | .gamepad => { result with gamepad := some transformed }
        | .joystick => { result with joystick := some transformed }

/-- `parseOptionTreesFromXml` proper: fold the loop body over the
`optiontree` list, starting from the all-`null` result object. -/
def parseOptionTreesFromXml (trees : List RawOptionTree) : ControlsData :=
  trees.foldl parseOptionTreeStep {}

/-- `getDefaultControlsData()` (src/controls-editor.js lines 1096–1104):
the minimal fallback used only when the XML fetch/parse **throws** (the
`catch` in `loadControlsDataFromXml`). -/
def getDefaultControlsData : ControlsData :=
  { keyboard := some (.mk { name := "root", label := "Keyboard Settings", deviceType := .keyboard } [])
    gamepad := some (.mk { name := "root", label := "Gamepad Settings", deviceType := .gamepad } [])
    joystick := some (.mk { name := "root", label := "Joystick Settings", deviceType := .joystick, instances := some 8 } []) }

mutual

/-- `findNodeByName(root, name)` (src/controls-editor.js lines 1395–1416):
depth-first preorder search, first name match wins; the JS `!name` guard
makes an empty name always miss. -/
def findNodeByName : Node → String → Option Node
  | .mk d children, nm =>
    if nm = "" then none
    else if d.name = nm then some (.mk d children)
    else findNodeInList nm children

def findNodeInList (nm : String) : List Node → Option Node
  | [] => none
  | c :: cs =>
    match findNodeByName c nm with
    | some r => some r
    | none => findNodeInList nm cs

end

/-! ## Settings store -/

/-- A per-path settings record (spec §3): every field optional, absence
(`none`) embedding a JS `undefined` field. -/
structure SettingsRecord where
  invert : Option Bool := none
  curveMode : Option String := none
  exponent : Option ℚ := none
  curve : Option Curve := none
deriving DecidableEq, Repr

/-- A typed view of one JS `settingName`: reading and writing that field
of a settings record (the source indexes records with the setting-name
string; the four names in use are `invert`, `curveMode`, `exponent`,
`curve`). -/
structure SettingField (α : Type) where
  get : SettingsRecord → Option α
  set : α → SettingsRecord → SettingsRecord

def invertField : SettingField Bool :=
  ⟨SettingsRecord.invert, fun v r => { r with invert := some v }⟩

def curveModeField : SettingField String :=
  ⟨SettingsRecord.curveMode, fun v r => { r with curveMode := some v }⟩

def exponentField : SettingField ℚ :=
  ⟨SettingsRecord.exponent, fun v r => { r with exponent := some v }⟩

def curveField : SettingField Curve :=
  ⟨SettingsRecord.curve, fun v r => { r with curve := some v }⟩

/-- A value stored under one key of a device-class settings object: either
a path's settings record, or (for the multi-instance classes) a nested
instance bucket holding path-keyed records. -/
inductive StoreVal where
  | record (r : SettingsRecord)
  | bucket (b : List (String × StoreVal))
deriving Repr

/-- A JS settings object: insertion-ordered key/value pairs with unique
keys (string keys that are paths or instance numbers; the two key spaces
never collide in any writer of the source). -/
abbrev Store := List (String × StoreVal)

/-- JS property read `obj[k]`. -/
def storeFind (s : Store) (k : String) : Option StoreVal :=
  (s.find? (fun e => e.1 == k)).map (·.2)

/-- JS property assignment `obj[k] = v`: overwrite in place, or append a
new key. -/
def putStore (s : Store) (k : String) (v : StoreVal) : Store :=
  if (s.find? (fun e => e.1 == k)).isSome then
    s.map (fun e => if e.1 == k then (e.1, v) else e)
  else s ++ [(k, v)]

/-- `storedValue[settingName]`: reading a setting field off a stored
value.  On a nested instance bucket every setting-name read is
`undefined` (instance buckets are keyed by paths, never by the four
setting names). -/
def StoreVal.read (f : SettingField α) : StoreVal → Option α
  | .record r => f.get r
  | .bucket _ => none

/-- The global `userSettings` object: one settings object per device
class. -/
structure UserSettings where
  keyboard : Store := []
  gamepad : Store := []
  joystick : Store := []

def emptyUserSettings : UserSettings := {}

/-- Decimal digits of `n`, most significant first; the fuel argument
(`n + 1` at the call site) only bounds the recursion. -/
def natDigitsAux : Nat → Nat → List Char
  | 0, _ => []
  | fuel + 1, n =>
    if n = 0 then [] else natDigitsAux fuel (n / 10) ++ [Nat.digitChar (n % 10)]

/-- JS number-to-string coercion for a natural number key. -/
def natToString (n : Nat) : String :=
  if n = 0 then "0" else String.mk (natDigitsAux (n + 1) n)

/-- JS number-to-string coercion for an integer key (instance numbers
become object keys through this coercion). -/
def intToString (i : Int) : String :=
  if i < 0 then "-" ++ natToString i.natAbs else natToString i.natAbs

/-- The device-class/instance dispatch shared by `getUserSetting` and the
renderers (src/controls-editor.js lines 2375–2386): the settings object
for the current selection, `{}` when the instance bucket does not exist. -/
def currentSettings (us : UserSettings) (dt : DeviceType) (joyInst gpInst : Int) : Store :=
  match dt with
  | .joystick =>
    match storeFind us.joystick (intToString joyInst) with
    | some (.bucket b) => b
    | some (.record _) => []
    | none => []
  | .gamepad =>
    match storeFind us.gamepad (intToString gpInst) with
    | some (.bucket b) => b
    | some (.record _) => []
    | none => []
  | .keyboard => us.keyboard

/-- `getUserSetting(path, settingName, defaultValue)` with
`defaultValue = undefined` (src/controls-editor.js lines 2373–2408), on
the dispatched settings object: exact-path lookup first, then the
final-segment fallback (only when the path actually has more than one
segment).  `none` embeds `undefined`. -/
def getUserSetting (settings : Store) (path : String) (f : SettingField α) : Option α :=
  match (storeFind settings path).bind (StoreVal.read f) with
  | some v => some v
  | none =>
    let optionName := lastSegment path
    if optionName ≠ path then (storeFind settings optionName).bind (StoreVal.read f)
    else none

/-- The result triple of `getUserSettingWithInheritance`. -/
structure InheritResult (α : Type) where
  value : α
  inherited : Bool
  inheritedFrom : Option String
deriving DecidableEq, Repr

/-- The ancestor walk of `getUserSettingWithInheritance`
(src/controls-editor.js lines 2432–2443): the loop index `i` runs from
`parts.length - 1` down to `1`; each step looks up the ancestor path
`parts.slice(0, i).join('.')` and on a hit reports `parts[i-1]` as the
supplying ancestor's name. -/
def inheritLoop (settings : Store) (f : SettingField α) (parts : List String) :
    Nat → Option (α × String)
  | 0 => none
  | i + 1 =>
    let parentPath := joinDot (parts.take (i + 1))
    match getUserSetting settings parentPath f with
    | some v => some (v, parts.getD i "")
    | none => inheritLoop settings f parts i

/-- `getUserSettingWithInheritance(path, settingName, defaultValue)`
(src/controls-editor.js lines 2419–2447). -/
def getUserSettingWithInheritance (settings : Store) (path : String)
    (f : SettingField α) (defaultValue : α) : InheritResult α :=
  match getUserSetting settings path f with
  | some v => ⟨v, false, none⟩
  | none =>
    let parts := splitPath path
    match inheritLoop settings f parts (parts.length - 1) with
    | some (v, nm) => ⟨v, true, some nm⟩
    | none => ⟨defaultValue, false, none⟩

/-- The flat-bucket write of `setUserSetting`'s keyboard branch
(src/controls-editor.js lines 2481–2488): create the path's record if
missing, then set the field.  (A non-record value at a path key never
occurs: path keys only ever receive records.) -/
def setFlatPath (s : Store) (path : String) (f : SettingField α) (v : α) : Store :=
  match storeFind s path with
  | some (.record r) => putStore s path (.record (f.set v r))
  | some (.bucket _) => s
  | none => putStore s path (.record (f.set v ({} : SettingsRecord)))

/-- The instance-bucket write of `setUserSetting`'s joystick/gamepad
branches (src/controls-editor.js lines 2459–2480): create the instance
bucket if missing, then write the path record inside it.  (An instance
key never holds a plain record.) -/
def setInstPath (s : Store) (instKey path : String) (f : SettingField α) (v : α) : Store :=
  let inner : Store :=
    match storeFind s instKey with
    | some (.bucket b) => b
    | some (.record _) => []
    | none => []
  putStore s instKey (.bucket (setFlatPath inner path f v))

/-- `setUserSetting(path, settingName, value)` (src/controls-editor.js
lines 2457–2499), with the module-level current device/instance selection
made explicit: joystick and gamepad records go into
`userSettings.<class>[instance][path]`, keyboard records into
`userSettings.keyboard[path]`. -/
def setUserSetting (us : UserSettings) (dt : DeviceType) (joyInst gpInst : Int)
    (path : String) (f : SettingField α) (v : α) : UserSettings :=
  match dt with
  | .joystick => { us with joystick := setInstPath us.joystick (intToString joyInst) path f v }
  | .gamepad => { us with gamepad := setInstPath us.gamepad (intToString gpInst) path f v }
  | .keyboard => { us with keyboard := setFlatPath us.keyboard path f v }

/-! ## Format converter: store → flat list -/

/-- One element of the flat persistence list produced by
`generateControlOptionsXml`: option name plus the optional
invert/exponent/curve payload. -/
structure FlatEntry where
  name : String
  invert : Option Bool := none
  exponent : Option ℚ := none
  curve : Option Curve := none
deriving DecidableEq, Repr

/-- The loop body of `generateControlOptionsXml` (src/controls-editor.js
lines 2645–2672) for one `(path, storedValue)` pair: `none` when the
entry carries none of invert/exponent/curve and is skipped. -/
def entryFor (path : String) (v : StoreVal) : Option FlatEntry :=
  let optionName := lastSegment path
  let curveMode := jsOr (StoreVal.read curveModeField v) "exponent"
  let invertVal := StoreVal.read invertField v
  let exponentVal := StoreVal.read exponentField v
  let curveVal := StoreVal.read curveField v
  let hasInvert := invertVal.isSome
  let hasExponent := curveMode == "exponent" &&
    (match exponentVal with | some e => e != 1 | none => false)
  let hasCurve := curveMode == "curve" &&
    (match curveVal with | some c => !c.points.isEmpty | none => false)
  if !hasInvert && !hasExponent && !hasCurve then none
  else
    some
      { name := optionName
        invert := if hasInvert then invertVal else none
        exponent := if hasExponent then exponentVal
          else if hasCurve then some 1 else none
        curve := if hasCurve then curveVal else none }

/-- The body of `generateControlOptionsXml` after the device dispatch
(src/controls-editor.js lines 2637–2681): `none` embeds the `null` result
for an empty settings object or an all-skipped option list. -/
def flatListOfStore (settings : Store) : Option (List FlatEntry) :=
  if settings.isEmpty then none
  else
    let controlOptions := settings.filterMap (fun e => entryFor e.1 e.2)
    if controlOptions.isEmpty then none else some controlOptions

/-- `generateControlOptionsXml(deviceType, instance)` (src/controls-editor.js
lines 2623–2682).  Only the joystick branch consults the instance
argument; the gamepad branch iterates the top-level
`userSettings.gamepad` object itself, whose values are instance buckets,
not records. -/
def generateControlOptionsXml (us : UserSettings) (deviceType : DeviceType)
    (inst : Int) : Option (List FlatEntry) :=
  let settings : Store :=
    match deviceType with
    | .joystick =>
      match storeFind us.joystick (intToString inst) with
      | some (.bucket b) => b
      | some (.record _) => []
      | none => []
    | .gamepad => us.gamepad
    | .keyboard => us.keyboard
  flatListOfStore settings

/-! ## Format converter: flat list → store -/

/-- An attribute value handed to `loadControlSettings` by the backend:
either the raw string from the keybinding XML or an already-numeric
value.  (JS `value === '1'` is `false` for any number, and
`parseFloat(value)` is the identity on a number.) -/
inductive AttrVal where
  | str (s : String)
  | num (q : ℚ)
deriving DecidableEq, Repr

/-- JS `value === '1'`. -/
def attrIsOne : AttrVal → Bool
  | .str s => s == "1"
  | .num _ => false

/-- The longest leading digit run and the rest of the input. -/
def takeDigits : List Char → List Nat × List Char
  | [] => ([], [])
  | c :: rest =>
    match digitVal c with
    | some d =>
      let p := takeDigits rest
      (d :: p.1, p.2)
    | none => ([], c :: rest)

def digitsToNat (ds : List Nat) : Nat :=
  ds.foldl (fun a d => a * 10 + d) 0

/-- JS `parseFloat(s)` for decimal notation: leading whitespace, optional
sign, integer digits, optional fraction, optional exponent part, trailing
garbage ignored; `none` embeds `NaN` (no digit at all). -/
def jsParseFloat (s : String) : Option ℚ :=
  let cs := s.data.dropWhile (fun c => c == ' ' || c == '\t' || c == '\n' || c == '\r')
  let signAndRest : ℚ × List Char :=
    match cs with
    | '-' :: rest => (-1, rest)
    | '+' :: rest => (1, rest)
    | _ => (1, cs)
  let ipPart := takeDigits signAndRest.2
  let fpPart : List Nat × List Char :=
    match ipPart.2 with
    | '.' :: rest => takeDigits rest
    | _ => ([], ipPart.2)
  if ipPart.1.isEmpty ∧ fpPart.1.isEmpty then none
  else
    let mantissa : ℚ :=
      (digitsToNat ipPart.1 : ℚ) + (digitsToNat fpPart.1 : ℚ) / ((10 : ℚ) ^ fpPart.1.length)
    let expo : Int :=
      match fpPart.2 with
      | 'e' :: rest | 'E' :: rest =>
        let esAndRest : Int × List Char :=
          match rest with
          | '-' :: r => (-1, r)
          | '+' :: r => (1, r)
          | _ => (1, rest)
        let ed := takeDigits esAndRest.2
        if ed.1.isEmpty then 0 else esAndRest.1 * digitsToNat ed.1
      | _ => 0
    some (signAndRest.1 * mantissa * (10 : ℚ) ^ expo)

/-- JS `parseFloat(value)` on a backend attribute value. -/
def attrParseFloat : AttrVal → Option ℚ
  | .str s => jsParseFloat s
  | .num q => some q

/-- One curve point as handed to the loader (`in_val`/`out_val` already
numeric). -/
structure LoadPoint where
  in_val : ℚ
  out_val : ℚ
deriving DecidableEq, Repr

/-- One option of the loader's input: the option name, the attribute
key/value list, and the optional curve points. -/
structure LoadOption where
  name : String
  attributes : List (String × AttrVal) := []
  curve_points : List LoadPoint := []
deriving DecidableEq, Repr

/-- One `{device_type, instance, control_options}` group of the loader's
input. -/
structure DeviceOpt where
  device_type : DeviceType
  instance_ : Int
  control_options : List LoadOption

/-- The per-option record reconstruction of `loadControlSettings`
(src/controls-editor.js lines 2762–2800): fold the attribute list
(`invert` by strict string comparison with `'1'`; `exponent` by
`parseFloat`, setting `curveMode = 'exponent'` only when the option has no
curve points — a non-numeric exponent attribute's `NaN` is embedded as the
absent value), then, when curve points are present, force
`curveMode = 'curve'` and build the curve (the built curve object carries
no `reset` key, embedded as `reset = false`). -/
def settingsOfLoadOption (opt : LoadOption) : SettingsRecord :=
  let s : SettingsRecord :=
    opt.attributes.foldl
      (fun s kv =>
        if kv.1 = "invert" then { s with invert := some (attrIsOne kv.2) }
        else if kv.1 = "exponent" then
          let s := { s with exponent := attrParseFloat kv.2 }
          if opt.curve_points.isEmpty then { s with curveMode := some "exponent" } else s
        else s)
      {}
  if opt.curve_points.isEmpty then s
  else
    { s with
      curveMode := some "curve"
      curve := some ⟨false, opt.curve_points.map (fun pt => ⟨pt.in_val, pt.out_val⟩)⟩ }

/-- Select the node tree of a device class. -/
def ControlsData.forDevice (cd : ControlsData) : DeviceType → Option Node
  | .keyboard => cd.keyboard
  | .gamepad => cd.gamepad
  | .joystick => cd.joystick

/-- The full-path resolution of `loadControlSettings`
(src/controls-editor.js lines 2802–2814): look the option name up in the
device class's display tree; use the found node's (truthy) path, else the
bare name. -/
def resolveFullPath (treeData : Option Node) (optionName : String) : String :=
  match treeData with
  | some t =>
    match findNodeByName t optionName with
    | some n => if n.path = "" then optionName else n.path
    | none => optionName
  | none => optionName

/-- `loadControlSettings(deviceOptions)` (src/controls-editor.js lines
2737–2847), with the module-level `controlsData` made explicit: clear the
store, then write every reconstructed record under its resolved path —
joystick records into the `parseInt(instance) || 1` bucket, keyboard and
gamepad records directly into the top-level class object. -/
def loadOptionStep (controlsData : ControlsData) (deviceType : DeviceType)
    (inst : Int) (us : UserSettings) (opt : LoadOption) : UserSettings :=
  let settings := settingsOfLoadOption opt
  let fullPath := resolveFullPath (controlsData.forDevice deviceType) opt.name
  match deviceType with
  | .joystick =>
    let instanceNum := if inst = 0 then 1 else inst
    let instKey := intToString instanceNum
    let inner : Store :=
      match storeFind us.joystick instKey with
      | some (.bucket b) => b
      | some (.record _) => []
      | none => []
    { us with joystick :=
        putStore us.joystick instKey (.bucket (putStore inner fullPath (.record settings))) }
  | .gamepad =>
    { us with gamepad := putStore us.gamepad fullPath (.record settings) }
  | .keyboard =>
    { us with keyboard := putStore us.keyboard fullPath (.record settings) }

/-- One `deviceOptions` group of `loadControlSettings`: skipped when its
option list is empty, otherwise folded option by option. -/
def loadDeviceStep (controlsData : ControlsData) (us : UserSettings)
    (devOpt : DeviceOpt) : UserSettings :=
  if devOpt.control_options.isEmpty then us
  else
    devOpt.control_options.foldl
      (loadOptionStep controlsData devOpt.device_type devOpt.instance_) us

def loadControlSettings (controlsData : ControlsData)
    (deviceOptions : List DeviceOpt) : UserSettings :=
  deviceOptions.foldl (loadDeviceStep controlsData) {}

/-! ## The external persistence channel and effective values -/

/-- The external serialisation boundary between `generateControlOptionsXml`
and `loadControlSettings` (the backend merges the flat list into the
keybinding XML and hands it back as attribute lists): an invert flag
becomes the attribute string `"1"`/`"0"`, numeric values travel as
numbers, curve points travel as their coordinates. -/
def encodeFlatEntry (e : FlatEntry) : LoadOption :=
  { name := e.name
    attributes :=
      (match e.invert with
        | some b => [("invert", AttrVal.str (if b then "1" else "0"))]
        | none => [])
      ++ (match e.exponent with
        | some q => [("exponent", AttrVal.num q)]
        | none => [])
    curve_points :=
      match e.curve with
      | some c => c.points.map (fun p => ⟨p.in_, p.out⟩)
      | none => [] }

/-- The curve mode a consumer sees for a record: the stored mode with the
JS-falsy default `'exponent'` (src/controls-editor.js line 2651). -/
def effectiveCurveMode (r : SettingsRecord) : String :=
  jsOr r.curveMode "exponent"

/-- The effective invert flag of a record: an unset invert behaves as
`false`. -/
def effectiveInvert (r : SettingsRecord) : Bool :=
  r.invert.getD false

/-- The effective curve points of a record: the stored points when the
record is in curve mode, otherwise none (an exponent-mode record's stored
curve is inactive). -/
def effectiveCurvePoints (r : SettingsRecord) : List Point :=
  if effectiveCurveMode r = "curve" then
    match r.curve with
    | some c => c.points
    | none => []
  else []

/-- The effective exponent of a record: neutral `1` in curve mode,
otherwise the stored exponent with the identity default. -/
def effectiveExponent (r : SettingsRecord) : ℚ :=
  if effectiveCurveMode r = "curve" then 1 else r.exponent.getD 1

/-! ## Shared concrete examples -/

/-- A raw option-group element with only a name and children. -/
def exChild (nm : String) (children : List RawElement) : RawElement :=
  .mk { name := some nm } children

/-- A small raw joystick hierarchy whose `inversion` subtree itself
contains a node named `inversion` (sibling names stay unique, as the data
model requires). -/
def exRawTree : RawElement :=
  exChild "root"
    [exChild "master"
      [exChild "joystick_curves"
        [exChild "inversion"
          [exChild "flight"
            [exChild "pitch" [], exChild "inversion" [exChild "deep" []]]]]]]

/-- The display tree the transformer produces for the example hierarchy. -/
def exDisplayRoot : Node :=
  transformToSCHierarchy (parseOptionGroup .joystick "" exRawTree) .joystick

/-- The first (inversion) section of the example display tree. -/
def exInversionSection : Node := exDisplayRoot.children.getD 0 exDisplayRoot

/-- The second (sensitivity-curves) section of the example display tree. -/
def exCurvesSection : Node := exDisplayRoot.children.getD 1 exDisplayRoot

/-- The `pitch` leaf as it appears in the inversion section of the example
display tree. -/
def exPitchNode : Node :=
  .mk
    { name := "pitch", label := "pitch"
      path := "root.master.joystick_curves.inversion.flight.pitch"
      deviceType := .joystick, sectionType := some "inversion" } []

/-- A bare node carrying only a path, for exercising the path rewrite. -/
def mkPathNode (p : String) (children : List Node := []) : Node :=
  .mk { name := "n", label := "n", path := p, deviceType := .joystick } children

/-! ## C1 -/

/-- **C1.**  The claim says the zero-division case of the first-point edge
branch is guarded and `points[0].out` is returned when `points[0].in = 0`.
The code has no guard: at the only input in `[0,1]` that reaches this
branch with `points[0].in = 0` — namely `input = 0` — it computes
`points[0].out * (0 / 0)`, i.e. `NaN` (embedded `none`), not
`points[0].out = 1/2`. -/
theorem C1_zero_division_unguarded :
    interpolateCurve 0 [{ in_ := 0, out := 1/2 }] = none := by decide

/-! ## C5 -/

/-- **C5 (counterexample).**  In the sensitivity-curves clone produced by
the display transformer for the example joystick hierarchy, the node
`deep` (whose source path contains the `inversion` segment twice in middle
position) keeps an unrewritten `inversion` segment in its path: the
chained `replace` calls have no `g` flag, so only the first middle
occurrence is rewritten.  This falsifies "every occurrence … for all four
positions … (including paths where the segment occurs more than once)". -/
theorem C5_counterexample :
    (findNodeByName exCurvesSection "deep").map Node.path =
      some "root.master.joystick_curves.sensitivity_curves.flight.inversion.deep" ∧
    "inversion" ∈
      splitPath "root.master.joystick_curves.sensitivity_curves.flight.inversion.deep" := by
  decide

/-- **C5 (amended).**  The curves-clone path rewrite replaces the
`inversion` segment in each of the four positions — whole path, leading,
trailing, middle — and does so recursively for every node of the clone;
but each of the four chained patterns replaces only its first match, so
when the segment occurs twice in middle position the second occurrence
survives. -/
theorem C5_amended_rewrite :
    (markSectionType "curves" (some "sensitivity_curves") (mkPathNode "inversion")).path
      = "sensitivity_curves" ∧
    (markSectionType "curves" (some "sensitivity_curves") (mkPathNode "inversion.a")).path
      = "sensitivity_curves.a" ∧
    (markSectionType "curves" (some "sensitivity_curves") (mkPathNode "a.inversion")).path
      = "a.sensitivity_curves" ∧
    (markSectionType "curves" (some "sensitivity_curves") (mkPathNode "a.inversion.b")).path
      = "a.sensitivity_curves.b" ∧
    ((markSectionType "curves" (some "sensitivity_curves")
        (mkPathNode "a.inversion" [mkPathNode "a.inversion.b"])).children.map Node.path)
      = ["a.sensitivity_curves.b"] ∧
    (markSectionType "curves" (some "sensitivity_curves")
        (mkPathNode "a.inversion.b.inversion")).path
      = "a.sensitivity_curves.b.sensitivity_curves" ∧
    (markSectionType "curves" (some "sensitivity_curves")
        (mkPathNode "a.inversion.b.inversion.c")).path
      = "a.sensitivity_curves.b.inversion.c" := by
  decide

/-! ## C6 -/

/-- `deviceTypeOfString` only answers `joystick` on the literal string. -/
theorem deviceTypeOfString_joystick {t : String}
    (h : deviceTypeOfString t = some DeviceType.joystick) : t = "joystick" := by
  unfold deviceTypeOfString at h
  split at h <;> simp_all

/-- One parse step leaves the joystick slot alone unless the tree is a
joystick `optiontree`. -/
theorem parseStep_preserves_joystick (result : ControlsData) (tree : RawOptionTree)
    (h : tree.type ≠ some "joystick") :
    (parseOptionTreeStep result tree).joystick = result.joystick := by
  unfold parseOptionTreeStep
  split
  · rfl
  · rename_i t htype
    split
    · rfl
    · split
      · rfl
      · rename_i dt hdt
        cases dt with
        | keyboard => rfl
        | gamepad => rfl
        | joystick =>
          exact absurd (htype ▸ congrArg some (deviceTypeOfString_joystick hdt)) h

theorem foldl_parseStep_preserves_joystick (trees : List RawOptionTree)
    (init : ControlsData) (h : ∀ tr ∈ trees, tr.type ≠ some "joystick") :
    (trees.foldl parseOptionTreeStep init).joystick = init.joystick := by
  induction trees generalizing init with
  | nil => rfl
  | cons tr rest ih =>
    rw [List.foldl_cons, ih _ (fun x hx => h x (List.mem_cons_of_mem _ hx)),
      parseStep_preserves_joystick _ _ (h tr (List.mem_cons_self _ _))]

/-- **C6 (counterexample).**  A raw input that parses but carries no
joystick `optiontree` leaves the joystick device class `null` in the
builder's result — not an empty-but-valid root node — even though another
class is present.  Only the total-failure `catch` path substitutes
`getDefaultControlsData`. -/
theorem C6_counterexample :
    (parseOptionTreesFromXml [{ type := some "keyboard", root := .mk {} [] }]).joystick
      = none ∧
    (parseOptionTreesFromXml [{ type := some "keyboard", root := .mk {} [] }]).keyboard.isSome
      = true := by
  exact ⟨rfl, rfl⟩

/-- **C6 (amended).**  When the raw hierarchy for a device class is
missing from a parsable input, that class stays `null` (shown here for
joystick over every input without a joystick tree); the empty-but-valid
roots of `getDefaultControlsData` — all three present, empty children —
are substituted only when fetching/parsing the input fails entirely. -/
theorem C6_missing_class_stays_null (trees : List RawOptionTree)
    (h : ∀ tr ∈ trees, tr.type ≠ some "joystick") :
    (parseOptionTreesFromXml trees).joystick = none ∧
    getDefaultControlsData.keyboard.map Node.children = some [] ∧
    getDefaultControlsData.gamepad.map Node.children = some [] ∧
    getDefaultControlsData.joystick.map Node.children = some [] :=
  ⟨foldl_parseStep_preserves_joystick trees {} h, rfl, rfl, rfl⟩

/-- Witness for C6: the empty raw input leaves the joystick class absent. -/
theorem C6_witness : (parseOptionTreesFromXml []).joystick = none :=
  (C6_missing_class_stays_null [] (by intro tr htr; cases htr)).1

/-! ## C7 -/

/-- **C7 (counterexample).**  The attribute value `"1.5"` is not mapped to
`null`: JS `parseInt` truncates it to `1`, so the parser answers `true`. -/
theorem C7_counterexample :
    parseVisibility (some "1.5") = Visibility.flag true ∧
    Visibility.flag true ≠ Visibility.null_ := by decide

/-- **C7 (amended).**  Unset ↦ `null`, `-1` ↦ `inherit`, `0` ↦ `false`,
`1` ↦ `true`; every other attribute value goes through JS `parseInt`, so a
string whose leading integer prefix is `-1`/`0`/`1` maps like that integer
(`"1.5"` ↦ `true`, `"-1.5"` ↦ `inherit`, `"0.9"` ↦ `false`) and only
values parsing to `NaN` or an integer outside `{-1,0,1}` map to `null`. -/
theorem C7_tri_state_parse :
    parseVisibility none = Visibility.null_ ∧
    parseVisibility (some "-1") = Visibility.inherit ∧
    parseVisibility (some "0") = Visibility.flag false ∧
    parseVisibility (some "1") = Visibility.flag true ∧
    parseVisibility (some "2") = Visibility.null_ ∧
    parseVisibility (some "abc") = Visibility.null_ ∧
    parseVisibility (some "1.5") = Visibility.flag true ∧
    parseVisibility (some "-1.5") = Visibility.inherit ∧
    parseVisibility (some "0.9") = Visibility.flag false := by decide

/-! ## C10 -/

/-- **C10.**  `findNodeByName` on a two-section display root (the shape
`transformToSCHierarchy` produces for multi-instance classes: the
inversion section listed before the sensitivity-curves section) returns
whatever preorder finds in the **inversion** section whenever the name
occurs there, no matter what the curves section contains; consequently
the loader's path resolution keys such an option name under the
inversion-section node's path (or the bare name if that node's path is
falsy), never under a `sensitivity_curves` path. -/
theorem C10_preorder_inversion_first (d : NodeData) (inv curves : Node)
    (nm : String) (v : Node)
    (hnm : nm ≠ "") (hroot : d.name ≠ nm)
    (hfound : findNodeByName inv nm = some v) :
    findNodeByName (Node.mk d [inv, curves]) nm = some v ∧
    resolveFullPath (some (Node.mk d [inv, curves])) nm =
      (if v.path = "" then nm else v.path) := by
  have h1 : findNodeByName (Node.mk d [inv, curves]) nm = some v := by
    simp only [findNodeByName, findNodeInList, if_neg hnm, if_neg hroot, hfound]
  refine ⟨h1, ?_⟩
  simp only [resolveFullPath, h1]

/-- Witness for C10: in the example display tree, `pitch` occurs in both
sections and resolves to the inversion-section node and its path. -/
theorem C10_witness :
    findNodeByName exDisplayRoot "pitch" = some exPitchNode ∧
    resolveFullPath (some exDisplayRoot) "pitch" =
      "root.master.joystick_curves.inversion.flight.pitch" := by
  have h := C10_preorder_inversion_first exDisplayRoot.data exInversionSection
      exCurvesSection "pitch" exPitchNode (by decide) (by decide) (by rfl)
  exact ⟨h.1, h.2.trans (by decide)⟩

/-! ## C3 -/

/-- If every ancestor lookup up to index `j` misses, the inheritance walk
from `j` finds nothing. -/
theorem inheritLoop_none {α : Type} (settings : Store) (f : SettingField α)
    (parts : List String) :
    ∀ j, (∀ i, i + 1 ≤ j →
      getUserSetting settings (joinDot (parts.take (i + 1))) f = none) →
    inheritLoop settings f parts j = none := by
  intro j
  induction j with
  | zero => intro _; rfl
  | succ i ih =>
    intro h
    show (match getUserSetting settings (joinDot (parts.take (i + 1))) f with
      | some v => some (v, parts.getD i "")
      | none => inheritLoop settings f parts i) = none
    rw [h i (Nat.le_refl _)]
    exact ih fun k hk => h k (Nat.le_succ_of_le hk)

/-- **C3.**  (i) On an initially empty store, after
`set("a.b.c", "exponent", 2.0)` the inheritance lookup at `"a.b.c.d"`
returns value `2`, `inherited = true`, `inheritedFrom = "c"`.
(ii) When neither the path itself nor any ancestor prefix has the setting
(direct lookups, including the short-name fallback, all miss), the lookup
returns the supplied default with `inherited = false` and
`inheritedFrom = null`. -/
theorem C3_inheritance :
    (getUserSettingWithInheritance
        (currentSettings
          (setUserSetting emptyUserSettings .keyboard 1 1 "a.b.c" exponentField 2)
          .keyboard 1 1)
        "a.b.c.d" exponentField 1
      = ⟨2, true, some "c"⟩) ∧
    (∀ {α : Type} (settings : Store) (path : String) (f : SettingField α) (d : α),
      getUserSetting settings path f = none →
      (∀ i, i + 1 < (splitPath path).length →
        getUserSetting settings (joinDot ((splitPath path).take (i + 1))) f = none) →
      getUserSettingWithInheritance settings path f d = ⟨d, false, none⟩) := by
  constructor
  · decide
  · intro α settings path f d hself hanc
    unfold getUserSettingWithInheritance
    rw [hself]
    have hloop : inheritLoop settings f (splitPath path)
        ((splitPath path).length - 1) = none := by
      apply inheritLoop_none
      intro i hi
      exact hanc i (by omega)
    show (match inheritLoop settings f (splitPath path)
        ((splitPath path).length - 1) with
      | some (v, nm) => (⟨v, true, some nm⟩ : InheritResult α)
      | none => ⟨d, false, none⟩) = ⟨d, false, none⟩
    rw [hloop]

/-- Witness for C3: the empty store resolves `"x.y"` to the default. -/
theorem C3_witness :
    getUserSettingWithInheritance ([] : Store) "x.y" exponentField 5
      = ⟨5, false, none⟩ := by
  refine C3_inheritance.2 [] "x.y" exponentField 5 (by decide) ?_
  intro i hi
  have hlen : (splitPath "x.y").length = 2 := by decide
  rw [hlen] at hi
  have hi0 : i = 0 := by omega
  subst hi0
  decide

/-! ## C4 -/

/-- **C4 (counterexample).**  A record in curve mode with a non-empty
curve *does* contribute an entry whose `exponent` field is present (the
neutral `1` is force-set alongside the curve), although its `curveMode`
is not `"exponent"` — so "includes an exponent only when curveMode is
exponent and the stored exponent differs from 1.0" is false as stated. -/
theorem C4_counterexample :
    entryFor "p.q"
        (.record { curveMode := some "curve", curve := some ⟨false, [⟨0, 0⟩]⟩ })
      = some { name := "q", invert := none, exponent := some 1,
               curve := some ⟨false, [⟨0, 0⟩]⟩ } ∧
    ({ curveMode := some "curve", curve := some ⟨false, [⟨0, 0⟩]⟩ } :
        SettingsRecord).curveMode ≠ some "exponent" := by
  decide

/-- **C4 (amended).**  (a) The identity record — exponent mode, exponent
exactly `1`, no curve, no invert — contributes no entry at all.
(b) Whenever a produced entry carries an exponent `q`, either the record
is effectively in exponent mode with stored exponent `q ≠ 1`, or `q` is
the neutral `1` force-set alongside a persisted curve.  (c) Conversely an
effectively-exponent-mode record with stored exponent `q ≠ 1` always
contributes an entry carrying exactly `q`. -/
theorem C4_exponent_persistence (path : String) (r : SettingsRecord) :
    entryFor path
        (.record
          { invert := none, curveMode := some "exponent",
            exponent := some 1, curve := none }) = none ∧
    (∀ e q, entryFor path (.record r) = some e → e.exponent = some q →
      (effectiveCurveMode r = "exponent" ∧ r.exponent = some q ∧ q ≠ 1) ∨
      (q = 1 ∧ e.curve.isSome = true)) ∧
    (effectiveCurveMode r = "exponent" → ∀ q, r.exponent = some q → q ≠ 1 →
      ∃ e, entryFor path (.record r) = some e ∧ e.exponent = some q) := by
  refine ⟨?_, ?_, ?_⟩
  · simp [entryFor, StoreVal.read, invertField, curveModeField, exponentField,
      curveField, jsOr]
  · intro e q he hq
    simp only [entryFor, StoreVal.read, invertField, curveModeField, exponentField,
      curveField, effectiveCurveMode] at he ⊢
    split at he
    · exact absurd he (by simp)
    · rw [Option.some.injEq] at he
      subst he
      simp only at hq
      split at hq
      · rename_i hE
        simp only [Bool.and_eq_true, beq_iff_eq] at hE
        obtain ⟨hcm, hexp⟩ := hE
        left
        refine ⟨hcm, hq, ?_⟩
        rw [hq] at hexp
        simpa using hexp
      · rename_i hE
        split at hq
        · rename_i hC
          right
          rw [Option.some.injEq] at hq
          refine ⟨hq.symm, ?_⟩
          simp only [Bool.and_eq_true, beq_iff_eq] at hC
          obtain ⟨hcm, hcur⟩ := hC
          show (if _ = true then r.curve else none).isSome = true
          rw [if_pos]
          · cases hc : r.curve with
            | none => rw [hc] at hcur; simp at hcur
            | some c => simp
          · simp only [Bool.and_eq_true, beq_iff_eq]
            exact ⟨hcm, hcur⟩
        · exact absurd hq (by simp)
  · intro hcm q hexpo hq1
    have hcm' : jsOr r.curveMode "exponent" = "exponent" := hcm
    simp only [entryFor, StoreVal.read, invertField, curveModeField, exponentField,
      curveField, hexpo, hcm']
    simp [hq1]

/-- Witness for C4: the curve-mode record of the counterexample satisfies
the inclusion characterisation through its forced neutral exponent. -/
theorem C4_witness :
    (effectiveCurveMode
        { curveMode := some "curve", curve := some ⟨false, [⟨0, 0⟩]⟩ } = "exponent" ∧
      ({ curveMode := some "curve", curve := some ⟨false, [⟨0, 0⟩]⟩ } :
          SettingsRecord).exponent = some 1 ∧ (1 : ℚ) ≠ 1) ∨
    ((1 : ℚ) = 1 ∧
      (FlatEntry.curve
          { name := "q", invert := none, exponent := some 1,
            curve := some ⟨false, [⟨0, 0⟩]⟩ }).isSome = true) :=
  (C4_exponent_persistence "p.q"
      { curveMode := some "curve", curve := some ⟨false, [⟨0, 0⟩]⟩ }).2.1
    { name := "q", invert := none, exponent := some 1,
      curve := some ⟨false, [⟨0, 0⟩]⟩ }
    1 (by decide) (by decide)

/-! ## Store lemmas -/

theorem find?_map_put (s : Store) (k : String) (v : StoreVal) :
    (s.map (fun e => if e.1 == k then (e.1, v) else e)).find? (fun e => e.1 == k)
      = (s.find? (fun e => e.1 == k)).map (fun e => (e.1, v)) := by
  induction s with
  | nil => rfl
  | cons e rest ih =>
    by_cases hk : e.1 = k
    · have hb : (e.1 == k) = true := by simpa using hk
      rw [List.map_cons, if_pos hb]
      simp only [List.find?_cons]
      rw [show ((e.1, v).1 == k) = true from hb]
      rfl
    · have hb : (e.1 == k) = false := by simpa using hk
      rw [List.map_cons, if_neg (by simp [hb])]
      simp only [List.find?_cons]
      rw [hb]
      exact ih

theorem find?_map_put_ne (s : Store) (k k' : String) (v : StoreVal) (hne : k' ≠ k) :
    (s.map (fun e => if e.1 == k then (e.1, v) else e)).find? (fun e => e.1 == k')
      = s.find? (fun e => e.1 == k') := by
  induction s with
  | nil => rfl
  | cons e rest ih =>
    by_cases hk : e.1 = k
    · have hb : (e.1 == k) = true := by simpa using hk
      have hb' : (e.1 == k') = false := by
        simp only [beq_eq_false_iff_ne, ne_eq, hk]
        exact fun h => hne h.symm
      rw [List.map_cons, if_pos hb]
      simp only [List.find?_cons]
      rw [show ((e.1, v).1 == k') = false from hb']
      exact ih
    · have hb : (e.1 == k) = false := by simpa using hk
      rw [List.map_cons, if_neg (by simp [hb])]
      simp only [List.find?_cons]
      cases hb' : (e.1 == k') with
      | true => rfl
      | false => exact ih

theorem storeFind_putStore_self (s : Store) (k : String) (v : StoreVal) :
    storeFind (putStore s k v) k = some v := by
  unfold putStore
  split
  · rename_i h
    unfold storeFind
    rw [find?_map_put]
    obtain ⟨e, he⟩ := Option.isSome_iff_exists.mp h
    rw [he]
    rfl
  · rename_i h
    unfold storeFind
    rw [List.find?_append, Option.not_isSome_iff_eq_none.mp h]
    simp

theorem storeFind_putStore_ne (s : Store) (k k' : String) (v : StoreVal)
    (hne : k' ≠ k) :
    storeFind (putStore s k v) k' = storeFind s k' := by
  unfold putStore
  split
  · unfold storeFind
    rw [find?_map_put_ne _ _ _ _ hne]
  · unfold storeFind
    rw [List.find?_append]
    have h2 : ([(k, v)].find? (fun e => e.1 == k')) = none := by
      have hb : ((k, v).1 == k') = false := by
        simp only [beq_eq_false_iff_ne, ne_eq]
        exact fun h => hne h.symm
      simp only [List.find?_cons, List.find?_nil, hb]
    rw [h2]
    simp

/-! ## C9 -/

/-- A settings object whose values are all nested instance buckets — the
invariant `setUserSetting` maintains for `userSettings.gamepad`. -/
def allBuckets (s : Store) : Prop := ∀ e ∈ s, ∃ b, e.2 = StoreVal.bucket b

/-- The flat-list loop body skips a nested instance bucket entirely: every
setting-name read on it is `undefined`. -/
theorem entryFor_bucket (path : String) (b : List (String × StoreVal)) :
    entryFor path (.bucket b) = none := rfl

/-- A store holding only instance buckets generates an empty (hence
`null`) flat list. -/
theorem flatListOfStore_allBuckets (s : Store) (h : allBuckets s) :
    flatListOfStore s = none := by
  unfold flatListOfStore
  split
  · rfl
  · have hnil : s.filterMap (fun e => entryFor e.1 e.2) = [] :=
      List.filterMap_eq_nil_iff.mpr fun e he => by
        obtain ⟨b, hb⟩ := h e he
        rw [hb]
        exact entryFor_bucket e.1 b
    simp [hnil]

theorem allBuckets_putStore (s : Store) (k : String) (b : List (String × StoreVal))
    (h : allBuckets s) : allBuckets (putStore s k (.bucket b)) := by
  unfold putStore
  split
  · intro e he
    rw [List.mem_map] at he
    obtain ⟨e0, he0, heq⟩ := he
    subst heq
    split
    · exact ⟨b, rfl⟩
    · exact h e0 he0
  · intro e he
    rw [List.mem_append] at he
    rcases he with he | he
    · exact h e he
    · simp at he
      subst he
      exact ⟨b, rfl⟩

/-- After the flat write, the path's entry exists. -/
theorem setFlatPath_find_isSome {α : Type} (s : Store) (path : String)
    (f : SettingField α) (v : α) :
    (storeFind (setFlatPath s path f v) path).isSome = true := by
  unfold setFlatPath
  cases hfind : storeFind s path with
  | none => rw [storeFind_putStore_self]; rfl
  | some sv =>
    cases sv with
    | record r => rw [storeFind_putStore_self]; rfl
    | bucket b => rw [hfind]; rfl

/-- **C9.**  (i) The gamepad branch of `generateControlOptionsXml` ignores
its instance argument.  (ii) `setUserSetting` always stores gamepad
records inside `userSettings.gamepad[instanceNumber][path]` and keeps the
top-level gamepad object an instance-bucket map.  (iii) On any such
instance-bucket map the generator skips every (bucket-valued) entry and
returns `null` — so no setting written through `setUserSetting` for any
gamepad instance ever appears as a correctly-formed entry in the gamepad
flat list. -/
theorem C9_gamepad_bucket_mismatch :
    (∀ (us : UserSettings) (inst1 inst2 : Int),
      generateControlOptionsXml us .gamepad inst1
        = generateControlOptionsXml us .gamepad inst2) ∧
    (∀ {α : Type} (us : UserSettings) (gi : Int) (path : String)
        (f : SettingField α) (v : α),
      allBuckets us.gamepad →
      allBuckets (setUserSetting us .gamepad 1 gi path f v).gamepad ∧
      ∃ b, storeFind (setUserSetting us .gamepad 1 gi path f v).gamepad
            (intToString gi) = some (.bucket b) ∧
          (storeFind b path).isSome = true) ∧
    (∀ (us : UserSettings) (inst : Int),
      allBuckets us.gamepad → generateControlOptionsXml us .gamepad inst = none) := by
  refine ⟨fun _ _ _ => rfl, ?_, ?_⟩
  · intro α us gi path f v h
    constructor
    · exact allBuckets_putStore _ _ _ h
    · refine ⟨_, storeFind_putStore_self _ _ _, setFlatPath_find_isSome _ _ _ _⟩
  · intro us inst h
    exact flatListOfStore_allBuckets _ h

/-- Witness for C9: writing one gamepad invert setting on the empty store
still generates `null` for the gamepad class. -/
theorem C9_witness :
    generateControlOptionsXml
        (setUserSetting emptyUserSettings .gamepad 1 1 "a.b" invertField true)
        .gamepad 1 = none := by
  refine C9_gamepad_bucket_mismatch.2.2 _ 1 ?_
  exact (C9_gamepad_bucket_mismatch.2.1 emptyUserSettings 1 "a.b" invertField true
    (fun e he => absurd he (List.not_mem_nil e))).1

/-! ## C8 -/

instance : IsTotal Point (fun a b : Point => a.in_ ≤ b.in_) :=
  ⟨fun a b => le_total a.in_ b.in_⟩

instance : IsTrans Point (fun a b : Point => a.in_ ≤ b.in_) :=
  ⟨fun _ _ _ => le_trans⟩

instance : IsAntisymm Point (fun a b : Point => a.in_ < b.in_) :=
  ⟨fun _ _ h h' => absurd (lt_trans h h') (lt_irrefl _)⟩

theorem sortPoints_perm (l : List Point) : (sortPoints l).Perm l :=
  List.perm_insertionSort _ l

/-- With pairwise-distinct `in` values the sorted list is strictly
sorted. -/
theorem sortPoints_sorted_lt (l : List Point) (hnd : (l.map Point.in_).Nodup) :
    (sortPoints l).Pairwise (fun a b => a.in_ < b.in_) := by
  have hle : (sortPoints l).Pairwise (fun a b => a.in_ ≤ b.in_) :=
    List.sorted_insertionSort _ l
  have hnd' : ((sortPoints l).map Point.in_).Nodup :=
    (((sortPoints_perm l).map Point.in_).nodup_iff).mpr hnd
  have hne : (sortPoints l).Pairwise (fun a b => a.in_ ≠ b.in_) :=
    List.pairwise_map.mp hnd'
  exact (hle.and hne).imp fun h => lt_of_le_of_ne h.1 h.2

/-- Two permutations of one point list with distinct `in` values sort to
the same list. -/
theorem sortPoints_eq_of_perm (l l' : List Point) (hperm : l.Perm l')
    (hnd : (l.map Point.in_).Nodup) : sortPoints l = sortPoints l' := by
  have h1 : (sortPoints l).Perm (sortPoints l') :=
    (sortPoints_perm l).trans (hperm.trans (sortPoints_perm l').symm)
  have hnd' : (l'.map Point.in_).Nodup := ((hperm.map Point.in_).nodup_iff).mp hnd
  exact List.eq_of_perm_of_sorted h1 (sortPoints_sorted_lt l hnd)
    (sortPoints_sorted_lt l' hnd')

/-- **C8 (counterexample).**  With two points sharing the `in` value
`1/2`, the caller's ordering leaks through the stable sort: at input
`1/2` one ordering returns `1/5`, the permuted ordering returns `4/5` —
so evaluation is *not* invariant under every permutation of the point
list. -/
theorem C8_counterexample :
    ([⟨1/2, 4/5⟩, ⟨1/2, 1/5⟩] : List Point).Perm [⟨1/2, 1/5⟩, ⟨1/2, 4/5⟩] ∧
    interpolateCurve (1/2) [⟨1/2, 1/5⟩, ⟨1/2, 4/5⟩] = some (1/5) ∧
    interpolateCurve (1/2) [⟨1/2, 4/5⟩, ⟨1/2, 1/5⟩] = some (4/5) ∧
    some ((1 : ℚ)/5) ≠ some ((4 : ℚ)/5) := by
  refine ⟨List.Perm.swap _ _ _, ?_, ?_, by norm_num⟩ <;>
    norm_num [interpolateCurve, interpolateSorted, sortPoints, findBracket, jsDiv,
      List.insertionSort, List.orderedInsert]

/-- **C8 (amended).**  For point lists whose `in` values are pairwise
distinct, piecewise curve evaluation returns the same result for any
permutation of the list (the internal sort then has a unique sorted
order); invariance can fail only when two points share an `in` value. -/
theorem C8_perm_invariant_distinct (input : ℚ) (l l' : List Point)
    (hperm : l.Perm l') (hnd : (l.map Point.in_).Nodup) :
    interpolateCurve input l = interpolateCurve input l' := by
  unfold interpolateCurve
  rw [sortPoints_eq_of_perm l l' hperm hnd]

/-- Witness for C8: a two-point list with distinct `in` values evaluated
at `1/3` under both orderings. -/
theorem C8_witness :
    interpolateCurve (1/3) [⟨1/4, 1/8⟩, ⟨1/2, 1/4⟩]
      = interpolateCurve (1/3) [⟨1/2, 1/4⟩, ⟨1/4, 1/8⟩] :=
  C8_perm_invariant_distinct (1/3) _ _ (List.Perm.swap _ _ _) (by simp)

theorem jsOr_none_str (d : String) : jsOr none d = d := rfl

theorem jsOr_exponent_str : jsOr (some "exponent") "exponent" = "exponent" := rfl

theorem jsOr_curve_str : jsOr (some "curve") "exponent" = "curve" := rfl

theorem encode_invert_beq (b : Bool) :
    ((if b = true then "1" else "0") == "1") = b := by cases b <;> rfl

/-- Record-level round trip: any entry a record contributes decodes back
to a record with the same effective invert, exponent and curve points
(for the two curve modes the writers produce). -/
theorem decode_encode_entry (p : String) (r : SettingsRecord) (fe : FlatEntry)
    (hmode : effectiveCurveMode r = "exponent" ∨ effectiveCurveMode r = "curve")
    (he : entryFor p (.record r) = some fe) :
    fe.name = lastSegment p ∧
    effectiveInvert (settingsOfLoadOption (encodeFlatEntry fe)) = effectiveInvert r ∧
    effectiveExponent (settingsOfLoadOption (encodeFlatEntry fe)) = effectiveExponent r ∧
    effectiveCurvePoints (settingsOfLoadOption (encodeFlatEntry fe))
      = effectiveCurvePoints r := by
  obtain ⟨rinv, rcm, rexp, rcur⟩ := r
  simp only [entryFor, StoreVal.read, invertField, curveModeField, exponentField,
    curveField, effectiveCurveMode] at he hmode
  rcases hmode with hm | hm
  · -- exponent mode
    have hC : (jsOr rcm "exponent" == "curve") = false := by rw [hm]; decide
    have hE1 : (jsOr rcm "exponent" == "exponent") = true := by rw [hm]; decide
    rcases hrexp : rexp with _ | q
    · -- no stored exponent: the entry can only carry invert
      rw [hrexp] at he
      simp only [hC, hE1, Bool.false_and, Bool.and_false, Bool.true_and] at he
      rcases hrinv : rinv with _ | b
      · rw [hrinv] at he; simp at he
      · rw [hrinv] at he
        simp only [Option.isSome_some, Bool.not_true, Bool.and_false,
          Bool.false_and, Bool.not_false, Bool.true_and] at he
        rw [if_neg (by simp)] at he
        rw [Option.some.injEq] at he
        subst he
        refine ⟨rfl, ?_, ?_, ?_⟩ <;>
          simp [encodeFlatEntry, settingsOfLoadOption, attrIsOne, attrParseFloat,
            effectiveInvert, effectiveExponent, effectiveCurvePoints,
            effectiveCurveMode, hm, hrexp, hrinv, jsOr_none_str, jsOr_exponent_str,
            encode_invert_beq]
    · -- stored exponent q
      rw [hrexp] at he
      by_cases hq : q = 1
      · -- identity exponent: behaves like the no-exponent case
        subst hq
        simp only [hC, hE1, Bool.false_and, Bool.and_false, Bool.true_and,
          bne_self_eq_false] at he
        rcases hrinv : rinv with _ | b
        · rw [hrinv] at he; simp at he
        · rw [hrinv] at he
          simp only [Option.isSome_some, Bool.not_true, Bool.and_false,
            Bool.false_and, Bool.not_false, Bool.true_and] at he
          rw [if_neg (by simp)] at he
          rw [Option.some.injEq] at he
          subst he
          refine ⟨rfl, ?_, ?_, ?_⟩ <;>
            simp [encodeFlatEntry, settingsOfLoadOption, attrIsOne, attrParseFloat,
              effectiveInvert, effectiveExponent, effectiveCurvePoints,
              effectiveCurveMode, hm, hrexp, hrinv, jsOr_none_str, jsOr_exponent_str,
              encode_invert_beq]
      · -- persistable exponent
        have hbne : (q != 1) = true := by simpa using hq
        simp only [hC, hE1, Bool.false_and, Bool.and_false, Bool.true_and,
          hbne, Bool.not_true, Bool.and_true] at he
        rw [if_neg (by simp)] at he
        rw [Option.some.injEq] at he
        subst he
        rcases hrinv : rinv with _ | b <;>
          refine ⟨rfl, ?_, ?_, ?_⟩ <;>
            simp [encodeFlatEntry, settingsOfLoadOption, attrIsOne, attrParseFloat,
              effectiveInvert, effectiveExponent, effectiveCurvePoints,
              effectiveCurveMode, hm, hrexp, hrinv, hq, jsOr_none_str,
              jsOr_exponent_str, encode_invert_beq]
  · -- curve mode
    have hC1 : (jsOr rcm "exponent" == "curve") = true := by rw [hm]; decide
    have hE : (jsOr rcm "exponent" == "exponent") = false := by rw [hm]; decide
    have hpts : ∀ l : List Point,
        (l.map (fun pt => (⟨pt.in_, pt.out⟩ : LoadPoint))).map
          (fun pt => (⟨pt.in_val, pt.out_val⟩ : Point)) = l := by
      intro l
      induction l with
      | nil => rfl
      | cons a l ih => simp only [List.map_cons, ih]
    rcases hrcur : rcur with _ | c
    · -- no stored curve: the entry can only carry invert
      rw [hrcur] at he
      simp only [hC1, hE, Bool.false_and, Bool.and_false, Bool.true_and] at he
      rcases hrinv : rinv with _ | b
      · rw [hrinv] at he; simp at he
      · rw [hrinv] at he
        simp only [Option.isSome_some, Bool.not_true, Bool.and_false,
          Bool.false_and, Bool.not_false, Bool.true_and] at he
        rw [if_neg (by simp)] at he
        rw [Option.some.injEq] at he
        subst he
        refine ⟨rfl, ?_, ?_, ?_⟩ <;>
          simp [encodeFlatEntry, settingsOfLoadOption, attrIsOne, attrParseFloat,
            effectiveInvert, effectiveExponent, effectiveCurvePoints,
            effectiveCurveMode, hm, hrcur, hrinv, jsOr_none_str, jsOr_curve_str,
            encode_invert_beq]
    · rcases hcp : c.points with _ | ⟨pt0, pts⟩
      · -- stored curve with no points: the entry can only carry invert
        rw [hrcur] at he
        simp only [hC1, hE, hcp, List.isEmpty_nil, Bool.not_true, Bool.false_and,
          Bool.and_false, Bool.true_and] at he
        rcases hrinv : rinv with _ | b
        · rw [hrinv] at he; simp at he
        · rw [hrinv] at he
          simp only [Option.isSome_some, Bool.not_true, Bool.and_false,
            Bool.false_and, Bool.not_false, Bool.true_and] at he
          rw [if_neg (by simp)] at he
          rw [Option.some.injEq] at he
          subst he
          refine ⟨rfl, ?_, ?_, ?_⟩ <;>
            simp [encodeFlatEntry, settingsOfLoadOption, attrIsOne, attrParseFloat,
              effectiveInvert, effectiveExponent, effectiveCurvePoints,
              effectiveCurveMode, hm, hrcur, hcp, hrinv, jsOr_none_str,
              jsOr_curve_str, encode_invert_beq]
      · -- persistable curve
        rw [hrcur] at he
        simp only [hC1, hE, hcp, List.isEmpty_cons, Bool.not_false, Bool.false_and,
          Bool.and_true, Bool.true_and] at he
        rw [if_neg (by simp)] at he
        rw [Option.some.injEq] at he
        subst he
        rcases hrinv : rinv with _ | b <;>
          refine ⟨rfl, ?_, ?_, ?_⟩ <;>
            simp [encodeFlatEntry, settingsOfLoadOption, attrIsOne, attrParseFloat,
              effectiveInvert, effectiveExponent, effectiveCurvePoints,
              effectiveCurveMode, hm, hrcur, hcp, hrinv, jsOr_none_str,
              jsOr_curve_str, encode_invert_beq, hpts]

theorem flatList_getD (s : Store) :
    (flatListOfStore s).getD [] = s.filterMap (fun e => entryFor e.1 e.2) := by
  unfold flatListOfStore
  split
  · rename_i h
    rw [List.isEmpty_iff.mp h]
    rfl
  · show (if (s.filterMap (fun e => entryFor e.1 e.2)).isEmpty = true then none
        else some (s.filterMap (fun e => entryFor e.1 e.2))).getD []
      = s.filterMap (fun e => entryFor e.1 e.2)
    split
    · rename_i h
      rw [List.isEmpty_iff.mp h]
      rfl
    · rfl

theorem storeFind_append (s t : Store) (k : String) :
    storeFind (s ++ t) k = (storeFind s k).or (storeFind t k) := by
  unfold storeFind
  rw [List.find?_append]
  cases List.find? (fun e => e.1 == k) s <;> simp

theorem putStore_fresh (s : Store) (k : String) (v : StoreVal)
    (h : storeFind s k = none) : putStore s k v = s ++ [(k, v)] := by
  unfold putStore
  rw [if_neg]
  unfold storeFind at h
  rw [Option.map_eq_none'] at h
  simp [h]

theorem foldl_putStore_fresh (L : List (String × StoreVal)) (init : Store)
    (hdisj : ∀ k ∈ L.map Prod.fst, storeFind init k = none)
    (hnd : (L.map Prod.fst).Nodup) :
    L.foldl (fun s kv => putStore s kv.1 kv.2) init = init ++ L := by
  induction L generalizing init with
  | nil => simp
  | cons kv rest ih =>
    rw [List.foldl_cons,
      putStore_fresh init kv.1 kv.2 (hdisj kv.1 (by simp))]
    rw [List.map_cons] at hnd
    have hknotin : kv.1 ∉ rest.map Prod.fst := (List.nodup_cons.mp hnd).1
    rw [ih (init ++ [(kv.1, kv.2)]) ?_ (List.nodup_cons.mp hnd).2]
    · simp
    · intro k hk
      rw [storeFind_append, hdisj k (by simp [hk])]
      have hkne : k ≠ kv.1 := fun h => hknotin (h ▸ hk)
      unfold storeFind
      rw [List.find?_cons_of_neg, List.find?_nil]
      · rfl
      · simp only [beq_iff_eq]
        exact fun hh => hkne hh.symm

theorem storeFind_of_mem_nodup (L : Store) (k : String) (v : StoreVal)
    (hmem : (k, v) ∈ L) (hnd : (L.map Prod.fst).Nodup) :
    storeFind L k = some v := by
  induction L with
  | nil => cases hmem
  | cons e rest ih =>
    rw [List.map_cons, List.nodup_cons] at hnd
    rcases List.mem_cons.mp hmem with h | h
    · subst h
      unfold storeFind
      rw [List.find?_cons_of_pos]
      · rfl
      · simp
    · have hkne : e.1 ≠ k := by
        intro hk
        exact hnd.1 (hk ▸ (List.mem_map_of_mem Prod.fst h : k ∈ rest.map Prod.fst))
      unfold storeFind
      rw [List.find?_cons_of_neg]
      · exact ih h hnd.2
      · simp [hkne]

theorem loadKeyboard_foldl (cd : ControlsData) (opts : List LoadOption)
    (us : UserSettings) :
    opts.foldl (loadOptionStep cd .keyboard 1) us =
      { keyboard := opts.foldl
          (fun s opt => putStore s (resolveFullPath cd.keyboard opt.name)
            (.record (settingsOfLoadOption opt))) us.keyboard
        gamepad := us.gamepad
        joystick := us.joystick } := by
  induction opts generalizing us with
  | nil => rfl
  | cons opt rest ih =>
    rw [List.foldl_cons, List.foldl_cons]
    exact ih _

theorem entryFor_name (p : String) (v : StoreVal) (fe : FlatEntry)
    (h : entryFor p v = some fe) : fe.name = lastSegment p := by
  simp only [entryFor] at h
  split at h
  · exact absurd h (by simp)
  · rw [Option.some.injEq] at h
    subst h
    rfl

theorem filterMap_keys_sublist (B : Store) :
    (B.filterMap (fun e => (entryFor e.1 e.2).map (fun _ => e.1))).Sublist
      (B.map Prod.fst) := by
  induction B with
  | nil => exact List.Sublist.refl _
  | cons e rest ih =>
    rw [List.filterMap_cons, List.map_cons]
    cases h : entryFor e.1 e.2 with
    | none => simp only [Option.map_none']; exact ih.cons _
    | some fe => simp only [Option.map_some']; exact ih.cons₂ _

/-- The generated names, resolved through the given device-class tree,
recover exactly the persisted paths when resolution maps each entry's
name back to its own path. -/
theorem resolved_keys_eq (tree : Option Node) (B : Store)
    (hres : ∀ e ∈ B, ∀ fe, entryFor e.1 e.2 = some fe →
      resolveFullPath tree (lastSegment e.1) = e.1) :
    (B.filterMap (fun e => entryFor e.1 e.2)).map
        (fun fe => resolveFullPath tree fe.name)
      = B.filterMap (fun e => (entryFor e.1 e.2).map (fun _ => e.1)) := by
  induction B with
  | nil => rfl
  | cons e rest ih =>
    rw [List.filterMap_cons, List.filterMap_cons]
    cases h : entryFor e.1 e.2 with
    | none =>
      simp only [Option.map_none']
      exact ih fun x hx => hres x (List.mem_cons_of_mem _ hx)
    | some fe =>
      simp only [Option.map_some', List.map_cons]
      rw [entryFor_name _ _ _ h, hres e (List.mem_cons_self _ _) fe h,
        ih fun x hx => hres x (List.mem_cons_of_mem _ hx)]

theorem storeFind_singleton_self (k : String) (v : StoreVal) :
    storeFind [(k, v)] k = some v := by
  unfold storeFind
  rw [List.find?_cons_of_pos]
  · rfl
  · simp

theorem putStore_singleton_self (k : String) (v v' : StoreVal) :
    putStore [(k, v)] k v' = [(k, v')] := by
  unfold putStore
  rw [if_pos]
  · simp
  · simp

/-! ## C2 -/

/-- The round trip of the claim for a keyboard bucket: generate the flat
list, ship it through the external channel, load it back. -/
def keyboardRoundTrip (cd : ControlsData) (us : UserSettings) : UserSettings :=
  loadControlSettings cd
    [⟨.keyboard, 1,
      ((generateControlOptionsXml us .keyboard 1).getD []).map encodeFlatEntry⟩]

/-- The round trip for one joystick instance: generate that instance's
flat list, ship it through the external channel, load it back under the
same instance number. -/
def joystickRoundTrip (cd : ControlsData) (us : UserSettings) (inst : Int) :
    UserSettings :=
  loadControlSettings cd
    [⟨.joystick, inst,
      ((generateControlOptionsXml us .joystick inst).getD []).map encodeFlatEntry⟩]

/-- Folding the joystick branch of the loader over a state that already
holds one instance bucket extends that same bucket record by record
(all writes of one device group share the `parseInt(instance) || 1`
key). -/
theorem loadJoystick_foldl_aux (cd : ControlsData) (inst : Int)
    (opts : List LoadOption) (inner : Store) :
    opts.foldl (loadOptionStep cd .joystick inst)
        { keyboard := [], gamepad := [],
          joystick := [(intToString (if inst = 0 then 1 else inst), .bucket inner)] }
      = { keyboard := [], gamepad := [],
          joystick := [(intToString (if inst = 0 then 1 else inst),
            .bucket (opts.foldl (fun s opt =>
              putStore s (resolveFullPath cd.joystick opt.name)
                (.record (settingsOfLoadOption opt))) inner))] } := by
  induction opts generalizing inner with
  | nil => rfl
  | cons o rest ih =>
    rw [List.foldl_cons, List.foldl_cons]
    have hstep : loadOptionStep cd .joystick inst
        { keyboard := [], gamepad := [],
          joystick := [(intToString (if inst = 0 then 1 else inst), .bucket inner)] } o
      = { keyboard := [], gamepad := [],
          joystick := [(intToString (if inst = 0 then 1 else inst),
            .bucket (putStore inner (resolveFullPath cd.joystick o.name)
              (.record (settingsOfLoadOption o))))] } := by
      simp only [loadOptionStep, storeFind_singleton_self, putStore_singleton_self,
        ControlsData.forDevice]
    rw [hstep, ih]

/-- **C2 (amended).**  For a keyboard bucket, and likewise for any
joystick instance bucket (instances are numbered 1..N, never 0), whose
keys are unique (JS objects guarantee this) and whose records use the
two writer-produced curve modes, *provided the loader's name resolution
maps every persisted entry's name back to its own path* (in particular
no two persisted paths share a final name segment), the flat-list round
trip stores, at every persisted path — for joystick, inside the same
instance's bucket — a record with the same effective invert, exponent
and curve values.  Without the resolution hypothesis the claim fails
(see the counterexample), and the gamepad class never round-trips at
all (C9). -/
theorem C2_roundtrip_resolved :
    (∀ (cd : ControlsData) (B : Store),
      (B.map Prod.fst).Nodup →
      (∀ e ∈ B, ∀ fe, entryFor e.1 e.2 = some fe →
        resolveFullPath cd.keyboard (lastSegment e.1) = e.1) →
      (∀ e ∈ B, ∀ r, e.2 = StoreVal.record r →
        effectiveCurveMode r = "exponent" ∨ effectiveCurveMode r = "curve") →
      ∀ p r fe, (p, StoreVal.record r) ∈ B → entryFor p (.record r) = some fe →
        ∃ r', storeFind (keyboardRoundTrip cd { keyboard := B }).keyboard p
            = some (.record r') ∧
          effectiveInvert r' = effectiveInvert r ∧
          effectiveExponent r' = effectiveExponent r ∧
          effectiveCurvePoints r' = effectiveCurvePoints r) ∧
    (∀ (cd : ControlsData) (us : UserSettings) (inst : Int) (B : Store),
      inst ≠ 0 →
      storeFind us.joystick (intToString inst) = some (.bucket B) →
      (B.map Prod.fst).Nodup →
      (∀ e ∈ B, ∀ fe, entryFor e.1 e.2 = some fe →
        resolveFullPath cd.joystick (lastSegment e.1) = e.1) →
      (∀ e ∈ B, ∀ r, e.2 = StoreVal.record r →
        effectiveCurveMode r = "exponent" ∨ effectiveCurveMode r = "curve") →
      ∀ p r fe, (p, StoreVal.record r) ∈ B → entryFor p (.record r) = some fe →
        ∃ b' r', storeFind (joystickRoundTrip cd us inst).joystick (intToString inst)
            = some (.bucket b') ∧
          storeFind b' p = some (.record r') ∧
          effectiveInvert r' = effectiveInvert r ∧
          effectiveExponent r' = effectiveExponent r ∧
          effectiveCurvePoints r' = effectiveCurvePoints r) := by
  constructor
  · intro cd B hkeys hres hmodes p r fe hmem hfe
    have hdec := decode_encode_entry p r fe (hmodes _ hmem r rfl) hfe
    refine ⟨settingsOfLoadOption (encodeFlatEntry fe), ?_, hdec.2⟩
    have hfe_mem : fe ∈ B.filterMap (fun e => entryFor e.1 e.2) :=
      List.mem_filterMap.mpr ⟨(p, .record r), hmem, hfe⟩
    have hflat : ((generateControlOptionsXml { keyboard := B } .keyboard 1).getD [])
        = B.filterMap (fun e => entryFor e.1 e.2) := flatList_getD B
    set flat := B.filterMap (fun e => entryFor e.1 e.2) with hflatdef
    set opts := flat.map encodeFlatEntry with hoptsdef
    have hne : opts.isEmpty = false := by
      rw [hoptsdef]
      cases hflat' : flat with
      | nil => rw [hflat'] at hfe_mem; cases hfe_mem
      | cons a l => rfl
    have hkb : (keyboardRoundTrip cd { keyboard := B }).keyboard
        = opts.foldl (fun s opt => putStore s (resolveFullPath cd.keyboard opt.name)
            (.record (settingsOfLoadOption opt))) [] := by
      show (loadControlSettings cd [⟨.keyboard, 1,
          ((generateControlOptionsXml { keyboard := B } .keyboard 1).getD []).map
            encodeFlatEntry⟩]).keyboard = _
      rw [hflat]
      show (loadDeviceStep cd {} ⟨.keyboard, 1, opts⟩).keyboard = _
      unfold loadDeviceStep
      rw [if_neg (by rw [hne]; exact Bool.false_ne_true)]
      rw [loadKeyboard_foldl]
    set L := opts.map (fun opt => (resolveFullPath cd.keyboard opt.name,
        StoreVal.record (settingsOfLoadOption opt))) with hLdef
    have hfold : opts.foldl (fun s opt => putStore s (resolveFullPath cd.keyboard opt.name)
        (.record (settingsOfLoadOption opt))) []
        = L.foldl (fun s kv => putStore s kv.1 kv.2) [] := by
      rw [hLdef, hoptsdef]
      simp only [List.foldl_map]
    have hLkeys : L.map Prod.fst
        = B.filterMap (fun e => (entryFor e.1 e.2).map (fun _ => e.1)) := by
      rw [hLdef, List.map_map, hoptsdef, List.map_map]
      exact resolved_keys_eq cd.keyboard B hres
    have hndL : (L.map Prod.fst).Nodup := by
      rw [hLkeys]
      exact (filterMap_keys_sublist B).nodup hkeys
    have hfresh : L.foldl (fun s kv => putStore s kv.1 kv.2) [] = [] ++ L :=
      foldl_putStore_fresh L [] (fun k _ => rfl) hndL
    have hmemL : (p, StoreVal.record (settingsOfLoadOption (encodeFlatEntry fe))) ∈ L := by
      have h1 : encodeFlatEntry fe ∈ opts := by
        rw [hoptsdef]
        exact List.mem_map_of_mem _ hfe_mem
      have h2 : (resolveFullPath cd.keyboard (encodeFlatEntry fe).name,
          StoreVal.record (settingsOfLoadOption (encodeFlatEntry fe))) ∈ L :=
        List.mem_map_of_mem
          (fun opt => (resolveFullPath cd.keyboard opt.name,
            StoreVal.record (settingsOfLoadOption opt))) h1
      have hname_eq : resolveFullPath cd.keyboard (encodeFlatEntry fe).name = p := by
        show resolveFullPath cd.keyboard fe.name = p
        rw [hdec.1]
        exact hres (p, .record r) hmem fe hfe
      rw [hname_eq] at h2
      exact h2
    rw [hkb, hfold, hfresh, List.nil_append]
    exact storeFind_of_mem_nodup L p _ hmemL hndL
  · intro cd us inst B hinst hbk hkeys hres hmodes p r fe hmem hfe
    have hdec := decode_encode_entry p r fe (hmodes _ hmem r rfl) hfe
    have hfe_mem : fe ∈ B.filterMap (fun e => entryFor e.1 e.2) :=
      List.mem_filterMap.mpr ⟨(p, .record r), hmem, hfe⟩
    have hflat : ((generateControlOptionsXml us .joystick inst).getD [])
        = B.filterMap (fun e => entryFor e.1 e.2) := by
      unfold generateControlOptionsXml
      rw [hbk]
      exact flatList_getD B
    set flat := B.filterMap (fun e => entryFor e.1 e.2) with hflatdef
    set opts := flat.map encodeFlatEntry with hoptsdef
    have hne : opts.isEmpty = false := by
      rw [hoptsdef]
      cases hflat' : flat with
      | nil => rw [hflat'] at hfe_mem; cases hfe_mem
      | cons a l => rfl
    set L := opts.map (fun opt => (resolveFullPath cd.joystick opt.name,
        StoreVal.record (settingsOfLoadOption opt))) with hLdef
    have hfold : opts.foldl (fun s opt => putStore s (resolveFullPath cd.joystick opt.name)
        (.record (settingsOfLoadOption opt))) []
        = L.foldl (fun s kv => putStore s kv.1 kv.2) [] := by
      rw [hLdef, hoptsdef]
      simp only [List.foldl_map]
    have hLkeys : L.map Prod.fst
        = B.filterMap (fun e => (entryFor e.1 e.2).map (fun _ => e.1)) := by
      rw [hLdef, List.map_map, hoptsdef, List.map_map]
      exact resolved_keys_eq cd.joystick B hres
    have hndL : (L.map Prod.fst).Nodup := by
      rw [hLkeys]
      exact (filterMap_keys_sublist B).nodup hkeys
    have hfresh : L.foldl (fun s kv => putStore s kv.1 kv.2) [] = [] ++ L :=
      foldl_putStore_fresh L [] (fun k _ => rfl) hndL
    have hmemL : (p, StoreVal.record (settingsOfLoadOption (encodeFlatEntry fe))) ∈ L := by
      have h1 : encodeFlatEntry fe ∈ opts := by
        rw [hoptsdef]
        exact List.mem_map_of_mem _ hfe_mem
      have h2 : (resolveFullPath cd.joystick (encodeFlatEntry fe).name,
          StoreVal.record (settingsOfLoadOption (encodeFlatEntry fe))) ∈ L :=
        List.mem_map_of_mem
          (fun opt => (resolveFullPath cd.joystick opt.name,
            StoreVal.record (settingsOfLoadOption opt))) h1
      have hname_eq : resolveFullPath cd.joystick (encodeFlatEntry fe).name = p := by
        show resolveFullPath cd.joystick fe.name = p
        rw [hdec.1]
        exact hres (p, .record r) hmem fe hfe
      rw [hname_eq] at h2
      exact h2
    have hload : (joystickRoundTrip cd us inst).joystick
        = [(intToString inst,
            .bucket (opts.foldl (fun s opt =>
              putStore s (resolveFullPath cd.joystick opt.name)
                (.record (settingsOfLoadOption opt))) []))] := by
      show (loadControlSettings cd [⟨.joystick, inst,
          ((generateControlOptionsXml us .joystick inst).getD []).map
            encodeFlatEntry⟩]).joystick = _
      rw [hflat]
      show (loadDeviceStep cd {} ⟨.joystick, inst, opts⟩).joystick = _
      unfold loadDeviceStep
      rw [if_neg (by rw [hne]; exact Bool.false_ne_true)]
      rcases hopts : opts with _ | ⟨o0, rest⟩
      · rw [hopts] at hne
        cases hne
      · rw [List.foldl_cons]
        have hstep : loadOptionStep cd .joystick inst {} o0
            = { keyboard := [], gamepad := [],
                joystick := [(intToString (if inst = 0 then 1 else inst),
                  .bucket (putStore [] (resolveFullPath cd.joystick o0.name)
                    (.record (settingsOfLoadOption o0))))] } := rfl
        rw [hstep, loadJoystick_foldl_aux, if_neg hinst, List.foldl_cons]
    refine ⟨L, settingsOfLoadOption (encodeFlatEntry fe), ?_, ?_, hdec.2⟩
    · rw [hload, hfold, hfresh, List.nil_append]
      exact storeFind_singleton_self _ _
    · exact storeFind_of_mem_nodup L p _ hmemL hndL

/-- Two persisted keyboard paths sharing the final name segment `x`. -/
def C2exStore : Store :=
  [("a.x", .record { curveMode := some "exponent", exponent := some 2 }),
   ("b.x", .record { curveMode := some "exponent", exponent := some 3 })]

/-- **C2 (counterexample).**  With records at `"a.x"` and `"b.x"` (both
persistable), the generated flat list carries two entries both named
`"x"`; loading keys both under `"x"`, the second overwriting the first,
so path `"a.x"` afterwards resolves (through the short-name fallback) to
exponent `3` instead of its original `2` — the round trip does *not*
reproduce every persisted path's effective values. -/
theorem C2_counterexample :
    getUserSetting C2exStore "a.x" exponentField = some 2 ∧
    getUserSetting (keyboardRoundTrip {} { keyboard := C2exStore }).keyboard
      "a.x" exponentField = some 3 ∧
    (2 : ℚ) ≠ 3 := by decide

/-- A single-record bucket whose bare-name path resolves to itself. -/
def C2wStore : Store :=
  [("x", .record { curveMode := some "exponent", exponent := some 3 })]

/-- Witness for C2: the singleton bucket round-trips its exponent, both
as the keyboard bucket and as joystick instance 1's bucket. -/
theorem C2_witness :
    (∃ r', storeFind (keyboardRoundTrip {} { keyboard := C2wStore }).keyboard "x"
        = some (.record r') ∧
      effectiveInvert r' = effectiveInvert
        { curveMode := some "exponent", exponent := some 3 } ∧
      effectiveExponent r' = effectiveExponent
        { curveMode := some "exponent", exponent := some 3 } ∧
      effectiveCurvePoints r' = effectiveCurvePoints
        { curveMode := some "exponent", exponent := some 3 }) ∧
    (∃ b' r', storeFind (joystickRoundTrip {}
          { joystick := [(intToString 1, .bucket C2wStore)] } 1).joystick
        (intToString 1) = some (.bucket b') ∧
      storeFind b' "x" = some (.record r') ∧
      effectiveInvert r' = effectiveInvert
        { curveMode := some "exponent", exponent := some 3 } ∧
      effectiveExponent r' = effectiveExponent
        { curveMode := some "exponent", exponent := some 3 } ∧
      effectiveCurvePoints r' = effectiveCurvePoints
        { curveMode := some "exponent", exponent := some 3 }) := by
  constructor
  · exact C2_roundtrip_resolved.1 {} C2wStore (by decide)
      (by
        intro e he fe hfe
        simp only [C2wStore, List.mem_singleton] at he
        subst he
        decide)
      (by
        intro e he rr hrr
        simp only [C2wStore, List.mem_singleton] at he
        subst he
        simp only [StoreVal.record.injEq] at hrr
        subst hrr
        decide)
      "x" { curveMode := some "exponent", exponent := some 3 } ⟨"x", none, some 3, none⟩
      (List.mem_singleton.mpr rfl) (by decide)
  · exact C2_roundtrip_resolved.2 {}
      { joystick := [(intToString 1, .bucket C2wStore)] } 1 C2wStore
      (by decide) (storeFind_singleton_self _ _) (by decide)
      (by
        intro e he fe hfe
        simp only [C2wStore, List.mem_singleton] at he
        subst he
        decide)
      (by
        intro e he rr hrr
        simp only [C2wStore, List.mem_singleton] at he
        subst he
        simp only [StoreVal.record.injEq] at hrr
        subst hrr
        decide)
      "x" { curveMode := some "exponent", exponent := some 3 } ⟨"x", none, some 3, none⟩
      (List.mem_singleton.mpr rfl) (by decide)
